import Mathlib

/-!
Shallow embedding of the xgboost-rust wrapper (src/model.rs and
src/polars_ext.rs) and proofs about its handle lifecycle, error handling
and DataFrame-to-dense-buffer bridge.

Modelling conventions:

* The native XGBoost engine is a black box reached through FFI.  Each
  wrapper operation makes a fixed, bounded sequence of native calls, so
  the outcome of those calls (integer status codes, produced handles,
  output buffer pointer and length, the process-global last-error
  message) is supplied as an explicit "native oracle" record per
  operation.  The wrapper functions are then pure Lean functions of
  their Rust arguments and that oracle.
* Every wrapper operation additionally returns the ordered trace of the
  native calls it actually performed (plus a marker for the wrapper-side
  copy out of the native result buffer), so that lifecycle properties
  (which handles were freed, in what order, on which exit paths) are
  statements about the trace.
* f32 feature values are only ever moved, never computed with, by the
  code under study; they are carried opaquely as `Int`.  The NaN
  missing-value sentinel is passed to the native engine and never
  inspected by the wrapper, so it does not appear in the model.
* A Rust `&Path` is `none` when `Path::to_str` fails (non-UTF-8) and
  `some s` otherwise; `CString::new` then fails exactly when `s`
  contains an embedded NUL character.
-/

/-- Error type of the wrapper.  In the Rust source this is the single
struct `XGBoostError { description: String }` (module `error`, declared
outside the two files under study); the constructors below mirror the
distinct `description` format strings built at each error site of
`model.rs` and `polars_ext.rs`, so that the error classes of the spec
are distinguishable. -/
inductive XGBoostError where
  /-- description "Path contains invalid UTF-8 characters" -/
  | invalidUtf8Path : XGBoostError
  /-- description "Path contains NUL byte: ..." -/
  | pathContainsNul : XGBoostError
  /-- description carrying the engine's last-error message, produced by
  the Error Translator on a non-zero native status -/
  | nativeCallFailure (message : String) : XGBoostError
  /-- description "DataFrame has zero rows or columns" -/
  | emptyDataFrame : XGBoostError
  /-- description "Failed to cast column to f32: ...", tagged here with
  the offending column's name -/
  | castFailure (colName : String) : XGBoostError
  /-- description "Null value at row {row}, col {col}" -/
  | nullValue (row col : Nat) : XGBoostError
  /-- description "Failed to select columns: ...", tagged here with the
  missing column's name -/
  | columnNotFound (name : String) : XGBoostError
deriving DecidableEq, Repr

/-- Modelled from the spec: the Error Translator
(`XGBoostError::check_return_value` in the crate's `error` module, whose
source file is not part of the two modules under study).  Per spec §4.1:
status 0 is the success sentinel; any non-zero status fetches the
engine's process-global last-error message and produces a structured
error carrying it.  The message prevailing at the moment of the failing
call is supplied by the per-operation native oracle. -/
def check_return_value (status : Int) (lastError : String) : Except XGBoostError Unit :=
  if status = 0 then .ok () else .error (.nativeCallFailure lastError)

/-- One step of an operation's interaction trace: a native call with the
arguments the wrapper passed and the status the engine returned, or the
wrapper-side copy of the native prediction buffer into owned memory. -/
inductive Event where
  /-- XGBoosterCreate(null, 0, out handle) -/
  | callBoosterCreate (handle : Nat) (status : Int) : Event
  /-- XGBoosterLoadModel(handle, path) -/
  | callLoadModel (handle : Nat) (path : String) (status : Int) : Event
  /-- XGBoosterLoadModelFromBuffer(handle, ptr, len) -/
  | callLoadModelFromBuffer (handle : Nat) (len : Nat) (status : Int) : Event
  /-- XGDMatrixCreateFromMat(data ptr, rows, cols, NaN, out handle) -/
  | callCreateMatrix (data : List Int) (rows cols : Nat) (handle : Nat) (status : Int) : Event
  /-- XGBoosterPredict(booster, dmatrix, mask, ntree limit 0, training, out len, out ptr) -/
  | callPredict (boosterHandle dmHandle : Nat) (mask : Nat) (ntreeLimit : Nat)
      (training : Bool) (status : Int) : Event
  /-- wrapper-side `slice::from_raw_parts(out_result, out_len).to_vec()` -/
  | copyOut (len : Nat) : Event
  /-- XGDMatrixFree(handle) -/
  | callFreeMatrix (handle : Nat) (status : Int) : Event
  /-- XGBoosterGetNumFeature(handle, out count) -/
  | callGetNumFeature (handle : Nat) (status : Int) : Event
  /-- XGBoosterSaveModel(handle, path) -/
  | callSaveModel (handle : Nat) (path : String) (status : Int) : Event
  /-- XGBoosterFree(handle) -/
  | callFreeBooster (handle : Nat) (status : Int) : Event
deriving DecidableEq, Repr

/-- The wrapper struct `Booster { handle: sys::BoosterHandle }`; the
opaque native pointer is carried as a `Nat` identifier. -/
structure Booster where
  handle : Nat
deriving DecidableEq, Repr

/-- A Rust `&Path` as the wrapper observes it: `toStr` is the result of
`Path::to_str` (`none` on non-UTF-8 platform bytes). -/
inductive RustPath where
  | valid (s : String) : RustPath
  | nonUtf8 : RustPath
deriving DecidableEq, Repr

/-- Result of `Path::to_str`. -/
def RustPath.toStr : RustPath → Option String
  | .valid s => some s
  | .nonUtf8 => none

/-- Whether `CString::new` rejects the string (embedded NUL byte). -/
def containsNul (s : String) : Bool :=
  s.toList.contains (Char.ofNat 0)

/-- Native oracle for one `load` / `load_from_buffer` call: outcomes of
the XGBoosterCreate and XGBoosterLoadModel(FromBuffer) calls. -/
structure LoadNative where
  createStatus : Int
  handle : Nat
  loadStatus : Int
  lastError : String

/-- Native oracle for one `predict` call: outcomes of the
XGDMatrixCreateFromMat, XGBoosterPredict and XGDMatrixFree calls, and
the native-owned output buffer (a view of engine memory, read at
offsets `0..outLen`). -/
structure PredictNative where
  createStatus : Int
  dmHandle : Nat
  predictStatus : Int
  outLen : Nat
  outBuf : Nat → Int
  freeStatus : Int
  lastError : String

/-- Native oracle for one `num_features` call. -/
structure NumFeatureNative where
  status : Int
  count : Nat
  lastError : String

/-- Native oracle for one `save` call. -/
structure SaveNative where
  status : Int
  lastError : String

/-- `Booster::load` (model.rs lines 60-85): validate the path (UTF-8,
then no embedded NUL), create a fresh booster handle, load the model
file into it; every native status goes through `check_return_value` and
the first failure returns early via `?`. -/
def Booster.load (path : RustPath) (o : LoadNative) :
    Except XGBoostError Booster × List Event :=
  match path.toStr with
  | none => (.error .invalidUtf8Path, [])
  | some s =>
    if containsNul s then (.error .pathContainsNul, [])
    else
      let e1 := Event.callBoosterCreate o.handle o.createStatus
      match check_return_value o.createStatus o.lastError with
      | .error err => (.error err, [e1])
      | .ok _ =>
        let e2 := Event.callLoadModel o.handle s o.loadStatus
        match check_return_value o.loadStatus o.lastError with
        | .error err => (.error err, [e1, e2])
        | .ok _ => (.ok { handle := o.handle }, [e1, e2])

/-- `Booster::load_from_buffer` (model.rs lines 100-117): create a fresh
booster handle, load the model from the byte buffer (pointer plus exact
length). -/
def Booster.load_from_buffer (buffer : List Nat) (o : LoadNative) :
    Except XGBoostError Booster × List Event :=
  let e1 := Event.callBoosterCreate o.handle o.createStatus
  match check_return_value o.createStatus o.lastError with
  | .error err => (.error err, [e1])
  | .ok _ =>
    let e2 := Event.callLoadModelFromBuffer o.handle buffer.length o.loadStatus
    match check_return_value o.loadStatus o.lastError with
    | .error err => (.error err, [e1, e2])
    | .ok _ => (.ok { handle := o.handle }, [e1, e2])

/-- `Booster::predict` (model.rs lines 139-187): create a transient
DMatrix from the raw data pointer and the caller-supplied row and
feature counts (no length validation), run XGBoosterPredict, copy the
native output buffer (`out_result`, `out_len`) into a fresh Vec, free
the DMatrix, return the copy.  As in the source, the early `?` return
on a failing XGBoosterPredict does not free the DMatrix. -/
def Booster.predict (b : Booster) (data : List Int) (num_rows num_features : Nat)
    (option_mask : Nat) (training : Bool) (o : PredictNative) :
    Except XGBoostError (List Int) × List Event :=
  let e1 := Event.callCreateMatrix data num_rows num_features o.dmHandle o.createStatus
  match check_return_value o.createStatus o.lastError with
  | .error err => (.error err, [e1])
  | .ok _ =>
    let e2 := Event.callPredict b.handle o.dmHandle option_mask 0 training o.predictStatus
    match check_return_value o.predictStatus o.lastError with
    | .error err => (.error err, [e1, e2])
    | .ok _ =>
      let results := (List.range o.outLen).map o.outBuf
      (.ok results,
        [e1, e2, Event.copyOut o.outLen, Event.callFreeMatrix o.dmHandle o.freeStatus])

/-- `Booster::num_features` (model.rs lines 193-204). -/
def Booster.num_features (b : Booster) (o : NumFeatureNative) :
    Except XGBoostError Nat × List Event :=
  let e1 := Event.callGetNumFeature b.handle o.status
  match check_return_value o.status o.lastError with
  | .error err => (.error err, [e1])
  | .ok _ => (.ok o.count, [e1])

/-- `Booster::save` (model.rs lines 218-234): same path validation as
`load`, then XGBoosterSaveModel. -/
def Booster.save (b : Booster) (path : RustPath) (o : SaveNative) :
    Except XGBoostError Unit × List Event :=
  match path.toStr with
  | none => (.error .invalidUtf8Path, [])
  | some s =>
    if containsNul s then (.error .pathContainsNul, [])
    else
      let e1 := Event.callSaveModel b.handle s o.status
      (check_return_value o.status o.lastError, [e1])

/-- `impl Drop for Booster` (model.rs lines 237-243): unconditionally
call XGBoosterFree on the held handle; the returned status is not
inspected. -/
def Booster.drop (b : Booster) (freeStatus : Int) : List Event :=
  [Event.callFreeBooster b.handle freeStatus]

/-- A public operation invoked on a live Booster instance, together with
its native oracle. -/
inductive BoosterOp where
  | predictOp (data : List Int) (rows feats mask : Nat) (training : Bool)
      (o : PredictNative) : BoosterOp
  | numFeaturesOp (o : NumFeatureNative) : BoosterOp
  | saveOp (path : RustPath) (o : SaveNative) : BoosterOp

/-- Trace of the native calls one public operation performs on a
Booster. -/
def runOp (b : Booster) : BoosterOp → List Event
  | .predictOp data rows feats mask training o => (b.predict data rows feats mask training o).2
  | .numFeaturesOp o => (b.num_features o).2
  | .saveOp path o => (b.save path o).2

/-- Number of XGBoosterFree calls on handle `h` in a trace. -/
def freeBoosterCount (h : Nat) (tr : List Event) : Nat :=
  tr.countP fun e =>
    match e with
    | .callFreeBooster g _ => g == h
    | _ => false

/-- Number of XGDMatrixFree calls on handle `h` in a trace. -/
def freeMatrixCount (h : Nat) (tr : List Event) : Nat :=
  tr.countP fun e =>
    match e with
    | .callFreeMatrix g _ => g == h
    | _ => false

/-- True for the two release calls, whose statuses the wrapper ignores,
and for the wrapper-side copy marker, which is not a native call. -/
def Event.isStatusChecked : Event → Bool
  | .callFreeMatrix _ _ => false
  | .callFreeBooster _ _ => false
  | .copyOut _ => false
  | _ => true

/-- The status the engine returned for a native-call event (0 for the
copy marker, which is not a native call). -/
def Event.status : Event → Int
  | .callBoosterCreate _ s => s
  | .callLoadModel _ _ s => s
  | .callLoadModelFromBuffer _ _ s => s
  | .callCreateMatrix _ _ _ _ s => s
  | .callPredict _ _ _ _ _ s => s
  | .copyOut _ => 0
  | .callFreeMatrix _ s => s
  | .callGetNumFeature _ s => s
  | .callSaveModel _ _ s => s
  | .callFreeBooster _ s => s

/-- A polars column as the bridge observes it: its name, whether
`Series::cast(&DataType::Float32)` succeeds on it, and (when it does)
the cast cells in row order, `none` for a null cell.  f32 cell values
are carried opaquely as `Int` since the bridge only moves them. -/
structure PolarsColumn where
  name : String
  castOk : Bool
  cells : List (Option Int)
deriving DecidableEq, Repr

/-- A polars DataFrame: its columns in order.  The polars invariant
(not re-proved here) is that all columns have the same length. -/
abbrev PolarsDataFrame := List PolarsColumn

/-- `DataFrame::height()`: the number of rows (length of the first
column; polars keeps all columns the same length). -/
def dfHeight : PolarsDataFrame → Nat
  | [] => 0
  | c :: _ => c.cells.length

/-- Inner loop of `dataframe_to_dense` (polars_ext.rs lines 114-119):
walk one cast column's cells with their row index, failing on the first
null, otherwise writing each value at `row_idx * num_features + col_idx`
in the pre-allocated buffer.  `rowIdx` is the enumeration counter. -/
def writeCells (F colIdx : Nat) : Nat → List (Option Int) → List Int →
    Except XGBoostError (List Int)
  | _, [], data => .ok data
  | rowIdx, none :: _, _ => .error (.nullValue rowIdx colIdx)
  | rowIdx, some v :: rest, data =>
    writeCells F colIdx (rowIdx + 1) rest (data.set (rowIdx * F + colIdx) v)

/-- Outer loop of `dataframe_to_dense` (polars_ext.rs lines 102-120):
for each column in order, cast it to Float32 (failing with the cast
error) and write its cells into the buffer.  `colIdx` is the
enumeration counter. -/
def writeColumns (F : Nat) : Nat → List PolarsColumn → List Int →
    Except XGBoostError (List Int)
  | _, [], data => .ok data
  | colIdx, col :: rest, data =>
    if col.castOk then
      match writeCells F colIdx 0 col.cells data with
      | .error e => .error e
      | .ok d => writeColumns F (colIdx + 1) rest d
    else .error (.castFailure col.name)

/-- `dataframe_to_dense` (polars_ext.rs lines 87-123): reject an empty
DataFrame, pre-allocate a zeroed buffer of exactly
`num_rows * num_features`, fill it column by column, and return
(buffer, rows, features). -/
def dataframe_to_dense (df : PolarsDataFrame) :
    Except XGBoostError (List Int × Nat × Nat) :=
  let num_rows := dfHeight df
  let num_features := df.length
  if num_rows = 0 ∨ num_features = 0 then .error .emptyDataFrame
  else
    match writeColumns num_features 0 df (List.replicate (num_rows * num_features) (0 : Int)) with
    | .error e => .error e
    | .ok data => .ok (data, num_rows, num_features)

/-- Embedding of the external `DataFrame::select` call made at
polars_ext.rs line 75: produce the columns named in `names`, in that
order, failing on the first requested name not present in the frame
(polars' ColumnNotFound error, wrapped by the source into an
`XGBoostError` whose description names the failed selection). -/
def selectColumns (df : PolarsDataFrame) : List String →
    Except XGBoostError PolarsDataFrame
  | [] => .ok []
  | n :: rest =>
    match df.find? (fun c => c.name == n) with
    | none => .error (.columnNotFound n)
    | some col =>
      match selectColumns df rest with
      | .error e => .error e
      | .ok cols => .ok (col :: cols)

/-- `predict_dataframe` (polars_ext.rs lines 57-65): convert the frame
to a dense buffer and call `Booster::predict` on it. -/
def predict_dataframe (b : Booster) (df : PolarsDataFrame)
    (option_mask : Nat) (training : Bool) (o : PredictNative) :
    Except XGBoostError (List Int) × List Event :=
  match dataframe_to_dense df with
  | .error e => (.error e, [])
  | .ok (data, num_rows, num_features) =>
    b.predict data num_rows num_features option_mask training o

/-- `predict_dataframe_with_columns` (polars_ext.rs lines 67-81): first
narrow the frame to the requested columns via `select`, then run the
same conversion and predict. -/
def predict_dataframe_with_columns (b : Booster) (df : PolarsDataFrame)
    (columns : List String) (option_mask : Nat) (training : Bool) (o : PredictNative) :
    Except XGBoostError (List Int) × List Event :=
  match selectColumns df columns with
  | .error e => (.error e, [])
  | .ok selected =>
    match dataframe_to_dense selected with
    | .error e => (.error e, [])
    | .ok (data, num_rows, num_features) =>
      b.predict data num_rows num_features option_mask training o

/-- Helper: `freeBoosterCount` distributes over trace concatenation. -/
theorem freeBoosterCount_append (h : Nat) (t1 t2 : List Event) :
    freeBoosterCount h (t1 ++ t2) = freeBoosterCount h t1 + freeBoosterCount h t2 := by
  simp [freeBoosterCount, List.countP_append]

/-- Helper: no public operation on a live Booster ever calls
XGBoosterFree. -/
theorem runOp_freeBooster_count (b : Booster) (h : Nat) (op : BoosterOp) :
    freeBoosterCount h (runOp b op) = 0 := by
  cases op with
  | predictOp data rows feats mask training o =>
    by_cases h1 : o.createStatus = 0 <;> by_cases h2 : o.predictStatus = 0 <;>
      simp [runOp, Booster.predict, check_return_value, h1, h2, freeBoosterCount]
  | numFeaturesOp o =>
    by_cases h1 : o.status = 0 <;>
      simp [runOp, Booster.num_features, check_return_value, h1, freeBoosterCount]
  | saveOp path o =>
    cases path with
    | nonUtf8 => simp [runOp, Booster.save, RustPath.toStr, freeBoosterCount]
    | valid s =>
      by_cases h1 : containsNul s <;> by_cases h2 : o.status = 0 <;>
        simp [runOp, Booster.save, RustPath.toStr, check_return_value, h1, h2, freeBoosterCount]

/-- Helper: a whole sequence of public operations on a live Booster
calls XGBoosterFree zero times. -/
theorem ops_freeBooster_count (b : Booster) (h : Nat) (ops : List BoosterOp) :
    freeBoosterCount h ((ops.map (runOp b)).flatten) = 0 := by
  induction ops with
  | nil => simp [freeBoosterCount]
  | cons op rest ih =>
    simp only [List.map_cons, List.flatten_cons, freeBoosterCount_append, ih,
      runOp_freeBooster_count]

/-- C1: the claim states that once the transient DMatrix handle is
successfully created, `predict` releases it on every exit path,
including when XGBoosterPredict fails.  The code does not: on a failing
XGBoosterPredict the `?` operator returns before the XGDMatrixFree call.
This theorem evaluates `predict` at such an input: matrix creation
succeeds (handle 5), the native predict call returns status 1, and the
returned trace contains no XGDMatrixFree call on handle 5 — the matrix
handle leaks. -/
theorem predict_leaks_matrix_on_native_failure :
    (Booster.predict ⟨3⟩ [1, 2] 1 2 0 false
        ⟨0, 5, 1, 0, fun _ => 0, 0, "predict failed"⟩).1
      = .error (.nativeCallFailure "predict failed") ∧
    (Booster.predict ⟨3⟩ [1, 2] 1 2 0 false
        ⟨0, 5, 1, 0, fun _ => 0, 0, "predict failed"⟩).2
      = [.callCreateMatrix [1, 2] 1 2 5 0, .callPredict 3 5 0 0 false 1] ∧
    freeMatrixCount 5
      [Event.callCreateMatrix [1, 2] 1 2 5 0, Event.callPredict 3 5 0 0 false 1] = 0 :=
  ⟨rfl, rfl, rfl⟩

/-- C2: the claim states that when handle creation succeeds but the
native model-load call fails, `load` / `load_from_buffer` return the
error, construct no Model, and release the partially created handle
first.  The code returns the error and constructs no Model, but the `?`
return skips any XGBoosterFree: the created handle leaks.  This theorem
evaluates both operations at such inputs: creation succeeds (handles 7
and 9), the load call returns status 1, and neither trace contains an
XGBoosterFree call. -/
theorem load_leaks_handle_on_native_failure :
    Booster.load (.valid "model.json") ⟨0, 7, 1, "bad model"⟩
      = (.error (.nativeCallFailure "bad model"),
         [.callBoosterCreate 7 0, .callLoadModel 7 "model.json" 1]) ∧
    freeBoosterCount 7
      [Event.callBoosterCreate 7 0, Event.callLoadModel 7 "model.json" 1] = 0 ∧
    Booster.load_from_buffer [10, 20, 30] ⟨0, 9, 1, "corrupted"⟩
      = (.error (.nativeCallFailure "corrupted"),
         [.callBoosterCreate 9 0, .callLoadModelFromBuffer 9 3 1]) ∧
    freeBoosterCount 9
      [Event.callBoosterCreate 9 0, Event.callLoadModelFromBuffer 9 3 1] = 0 :=
  ⟨rfl, rfl, rfl, rfl⟩

/-- C3: on every successful `predict`, the native output buffer is
copied into a fresh owned sequence of exactly the reported length
`out_len`, and the copy happens strictly before the XGDMatrixFree
release of the transient matrix handle: the trace is exactly create,
predict, copy, free, in that order. -/
theorem predict_copy_before_release (b : Booster) (data : List Int)
    (rows feats mask : Nat) (training : Bool) (o : PredictNative) (res : List Int)
    (h : (b.predict data rows feats mask training o).1 = .ok res) :
    res = (List.range o.outLen).map o.outBuf ∧
    res.length = o.outLen ∧
    (b.predict data rows feats mask training o).2
      = [.callCreateMatrix data rows feats o.dmHandle o.createStatus,
         .callPredict b.handle o.dmHandle mask 0 training o.predictStatus,
         .copyOut o.outLen,
         .callFreeMatrix o.dmHandle o.freeStatus] := by
  by_cases h1 : o.createStatus = 0 <;> by_cases h2 : o.predictStatus = 0 <;>
    simp [Booster.predict, check_return_value, h1, h2] at h ⊢
  exact ⟨h.symm, by simp [← h]⟩

/-- Witness for C3 at a concrete successful call: two output values are
copied out before the free, and the trace shows the order. -/
theorem predict_copy_before_release_witness :
    ([9, 9] : List Int) = (List.range 2).map (fun _ => (9 : Int)) ∧
    ([9, 9] : List Int).length = 2 ∧
    (Booster.predict ⟨1⟩ [5] 1 1 0 false ⟨0, 2, 0, 2, fun _ => 9, 0, "ok"⟩).2
      = [.callCreateMatrix [5] 1 1 2 0, .callPredict 1 2 0 0 false 0,
         .copyOut 2, .callFreeMatrix 2 0] :=
  predict_copy_before_release ⟨1⟩ [5] 1 1 0 false ⟨0, 2, 0, 2, fun _ => 9, 0, "ok"⟩ [9, 9] rfl

/-- C4: for every Booster instance, any sequence of public operations
(predict / num_features / save, with arbitrary inputs and native
outcomes) followed by destruction produces exactly one XGBoosterFree
call on the instance's handle — the destructor frees unconditionally,
no other operation frees, so no leak and no double release; and the
load constructors never emit an XGBoosterFree call at all. -/
theorem booster_freed_exactly_once (b : Booster) (ops : List BoosterOp) (z : Int)
    (path : RustPath) (buf : List Nat) (lo lo2 : LoadNative) :
    freeBoosterCount b.handle ((ops.map (runOp b)).flatten ++ Booster.drop b z) = 1 ∧
    freeBoosterCount b.handle (Booster.load path lo).2 = 0 ∧
    freeBoosterCount b.handle (Booster.load_from_buffer buf lo2).2 = 0 := by
  refine ⟨?_, ?_, ?_⟩
  · rw [freeBoosterCount_append, ops_freeBooster_count]
    simp [Booster.drop, freeBoosterCount]
  · cases path with
    | nonUtf8 => simp [Booster.load, RustPath.toStr, freeBoosterCount]
    | valid s =>
      by_cases h1 : containsNul s <;> by_cases h2 : lo.createStatus = 0 <;>
        by_cases h3 : lo.loadStatus = 0 <;>
          simp [Booster.load, RustPath.toStr, check_return_value, h1, h2, h3, freeBoosterCount]
  · by_cases h2 : lo2.createStatus = 0 <;> by_cases h3 : lo2.loadStatus = 0 <;>
      simp [Booster.load_from_buffer, check_return_value, h2, h3, freeBoosterCount]

/-- C5 counterexample: the claim says every native call's status is
checked through the Error Translator and any non-zero status yields a
structured error.  Here the XGDMatrixFree call at the end of a
successful `predict` returns status 1, yet `predict` still returns the
successful result: the release call's status is ignored, not routed
through the translator. -/
theorem free_status_ignored_cex :
    (Booster.predict ⟨3⟩ [1, 2] 1 2 0 false
        ⟨0, 5, 0, 2, fun _ => 7, 1, "free failed"⟩).1
      = .ok [7, 7] ∧
    (Booster.predict ⟨3⟩ [1, 2] 1 2 0 false
        ⟨0, 5, 0, 2, fun _ => 7, 1, "free failed"⟩).2
      = [.callCreateMatrix [1, 2] 1 2 5 0, .callPredict 3 5 0 0 false 0,
         .copyOut 2, .callFreeMatrix 5 1] :=
  ⟨rfl, rfl⟩

/-- C5 (amended): every native call other than the two release calls
(XGDMatrixFree inside `predict`, XGBoosterFree in the destructor) has
its status checked through the single Error Translator: status 0 means
success, the first non-zero status aborts the operation with a
structured error carrying the engine's last-error message.  The release
calls' statuses are ignored: `predict`'s result does not depend on the
XGDMatrixFree status, and the destructor inspects nothing. -/
theorem native_statuses_checked (s : String) (buf : List Nat)
    (b : Booster) (data : List Int) (rows feats mask : Nat) (training : Bool)
    (lo po2 : LoadNative) (o : PredictNative) (no : NumFeatureNative) (so : SaveNative)
    (z : Int) (hs : containsNul s = false) :
    ((lo.createStatus ≠ 0 ∨ lo.loadStatus ≠ 0) →
      (Booster.load (.valid s) lo).1 = .error (.nativeCallFailure lo.lastError)) ∧
    (lo.createStatus = 0 → lo.loadStatus = 0 →
      (Booster.load (.valid s) lo).1 = .ok ⟨lo.handle⟩) ∧
    ((po2.createStatus ≠ 0 ∨ po2.loadStatus ≠ 0) →
      (Booster.load_from_buffer buf po2).1 = .error (.nativeCallFailure po2.lastError)) ∧
    (po2.createStatus = 0 → po2.loadStatus = 0 →
      (Booster.load_from_buffer buf po2).1 = .ok ⟨po2.handle⟩) ∧
    ((o.createStatus ≠ 0 ∨ o.predictStatus ≠ 0) →
      (b.predict data rows feats mask training o).1
        = .error (.nativeCallFailure o.lastError)) ∧
    (o.createStatus = 0 → o.predictStatus = 0 →
      (b.predict data rows feats mask training o).1
        = .ok ((List.range o.outLen).map o.outBuf)) ∧
    (no.status ≠ 0 →
      (b.num_features no).1 = .error (.nativeCallFailure no.lastError)) ∧
    (no.status = 0 → (b.num_features no).1 = .ok no.count) ∧
    (so.status ≠ 0 →
      (b.save (.valid s) so).1 = .error (.nativeCallFailure so.lastError)) ∧
    (so.status = 0 → (b.save (.valid s) so).1 = .ok ()) ∧
    Booster.drop b z = [.callFreeBooster b.handle z] := by
  refine ⟨?_, ?_, ?_, ?_, ?_, ?_, ?_, ?_, ?_, ?_, rfl⟩
  · intro h
    by_cases h1 : lo.createStatus = 0
    · rcases h with h | h
      · exact absurd h1 h
      · simp [Booster.load, RustPath.toStr, hs, check_return_value, h1, h]
    · simp [Booster.load, RustPath.toStr, hs, check_return_value, h1]
  · intro h1 h2
    simp [Booster.load, RustPath.toStr, hs, check_return_value, h1, h2]
  · intro h
    by_cases h1 : po2.createStatus = 0
    · rcases h with h | h
      · exact absurd h1 h
      · simp [Booster.load_from_buffer, check_return_value, h1, h]
    · simp [Booster.load_from_buffer, check_return_value, h1]
  · intro h1 h2
    simp [Booster.load_from_buffer, check_return_value, h1, h2]
  · intro h
    by_cases h1 : o.createStatus = 0
    · rcases h with h | h
      · exact absurd h1 h
      · simp [Booster.predict, check_return_value, h1, h]
    · simp [Booster.predict, check_return_value, h1]
  · intro h1 h2
    simp [Booster.predict, check_return_value, h1, h2]
  · intro h
    simp [Booster.num_features, check_return_value, h]
  · intro h
    simp [Booster.num_features, check_return_value, h]
  · intro h
    simp [Booster.save, RustPath.toStr, hs, check_return_value, h]
  · intro h
    simp [Booster.save, RustPath.toStr, hs, check_return_value, h]

/-- Witness for C5 (amended) at a concrete input: a valid path, and a
`predict` whose XGBoosterPredict call fails with status 3, which the
translator turns into the structured error carrying the engine
message. -/
theorem native_statuses_checked_witness :
    containsNul "m.json" = false ∧
    (Booster.predict ⟨1⟩ [2] 1 1 0 false ⟨0, 4, 3, 0, fun _ => 0, 0, "boom"⟩).1
      = .error (.nativeCallFailure "boom") :=
  ⟨by decide,
   (native_statuses_checked "m.json" [] ⟨1⟩ [2] 1 1 0 false
      ⟨0, 0, 0, ""⟩ ⟨0, 0, 0, ""⟩ ⟨0, 4, 3, 0, fun _ => 0, 0, "boom"⟩
      ⟨0, 0, ""⟩ ⟨0, ""⟩ 0 (by decide)).2.2.2.2.1 (Or.inr (by decide))⟩

/-- C6 counterexample: the claim says `load("")` fails with an
InvalidPath-class error before any native call.  The empty string is
valid UTF-8 and contains no NUL byte, so the code's path validation
passes it: with an engine whose create call succeeds and whose load
call then fails, `load("")` makes two native calls and returns a
NativeCallFailure-class error, not an InvalidPath-class one. -/
theorem load_empty_path_reaches_native :
    Booster.load (.valid "") ⟨0, 4, 1, "cannot open file"⟩
      = (.error (.nativeCallFailure "cannot open file"),
         [.callBoosterCreate 4 0, .callLoadModel 4 "" 1]) :=
  rfl

/-- C6 (amended): a non-UTF-8 path or a path with an embedded NUL byte
makes `load` fail with the corresponding InvalidPath-class error before
any native call (empty trace); the empty path, however, passes
validation and `load("")` always proceeds to the native
XGBoosterCreate call. -/
theorem load_path_validation (s : String) (o o2 : LoadNative)
    (hnul : containsNul s = true) :
    Booster.load .nonUtf8 o = (.error .invalidUtf8Path, []) ∧
    Booster.load (.valid s) o = (.error .pathContainsNul, []) ∧
    ((Booster.load (.valid "") o2).2).head?
      = some (.callBoosterCreate o2.handle o2.createStatus) := by
  refine ⟨rfl, by simp [Booster.load, RustPath.toStr, hnul], ?_⟩
  by_cases h1 : o2.createStatus = 0 <;> by_cases h2 : o2.loadStatus = 0 <;>
    simp [Booster.load, RustPath.toStr, containsNul, check_return_value, h1, h2]

/-- Witness for C6 (amended) at a concrete input: a path with an
embedded NUL byte is rejected with the NUL-byte InvalidPath-class error
and an empty native-call trace. -/
theorem load_path_validation_witness :
    containsNul "a\x00b" = true ∧
    Booster.load (.valid "a\x00b") ⟨0, 1, 0, "e"⟩ = (.error .pathContainsNul, []) :=
  ⟨by decide,
   (load_path_validation "a\x00b" ⟨0, 1, 0, "e"⟩ ⟨0, 1, 0, "e"⟩ (by decide)).2.1⟩

/-- C10: `predict` performs no validation that `data.length` equals
`num_rows * num_features`: for every data slice and every pair of
dimension arguments, the very first thing it does is pass the raw
buffer and the caller-supplied row and feature counts to the native
XGDMatrixCreateFromMat call, and when the native calls succeed it
returns the engine's output — the `buffer.length == rows * features`
invariant is an unchecked precondition. -/
theorem predict_no_length_check (b : Booster) (data : List Int)
    (rows feats mask : Nat) (training : Bool) (o : PredictNative) :
    ((b.predict data rows feats mask training o).2).head?
      = some (.callCreateMatrix data rows feats o.dmHandle o.createStatus) ∧
    (o.createStatus = 0 → o.predictStatus = 0 →
      (b.predict data rows feats mask training o).1
        = .ok ((List.range o.outLen).map o.outBuf)) := by
  constructor
  · by_cases h1 : o.createStatus = 0 <;> by_cases h2 : o.predictStatus = 0 <;>
      simp [Booster.predict, check_return_value, h1, h2]
  · intro h1 h2
    simp [Booster.predict, check_return_value, h1, h2]

/-- Witness for C10 at a concrete input whose length (3) differs from
rows * features (5 * 7 = 35): predict still reaches the native layer
and succeeds. -/
theorem predict_no_length_check_witness :
    ([1, 2, 3] : List Int).length ≠ 5 * 7 ∧
    (Booster.predict ⟨1⟩ [1, 2, 3] 5 7 0 false ⟨0, 2, 0, 4, fun i => i, 0, ""⟩).1
      = .ok [0, 1, 2, 3] :=
  ⟨by decide,
   (predict_no_length_check ⟨1⟩ [1, 2, 3] 5 7 0 false
      ⟨0, 2, 0, 4, fun i => (i : Int), 0, ""⟩).2 rfl rfl⟩

/-- Helper: two row-major indices with distinct column offsets below the
stride are distinct. -/
theorem rowMajor_index_ne (F r1 c1 r2 c2 : Nat) (h1 : c1 < F) (h2 : c2 < F)
    (hne : c1 ≠ c2) : r1 * F + c1 ≠ r2 * F + c2 := by
  intro h
  have e1 : (r1 * F + c1) % F = c1 := by
    rw [Nat.add_comm, Nat.add_mul_mod_self_right, Nat.mod_eq_of_lt h1]
  have e2 : (r2 * F + c2) % F = c2 := by
    rw [Nat.add_comm, Nat.add_mul_mod_self_right, Nat.mod_eq_of_lt h2]
  rw [h, e2] at e1
  exact hne e1.symm

/-- Helper: a row-major index with in-range row and column lies inside
the rows-by-stride buffer. -/
theorem rowMajor_index_lt (F R r c : Nat) (hr : r < R) (hc : c < F) :
    r * F + c < R * F := by
  calc r * F + c < r * F + F := by omega
    _ = (r + 1) * F := by ring
    _ ≤ R * F := Nat.mul_le_mul_right F hr

/-- Helper: `writeCells` preserves the buffer length. -/
theorem writeCells_length (F c : Nat) (cells : List (Option Int)) :
    ∀ i data d, writeCells F c i cells data = .ok d → d.length = data.length := by
  induction cells with
  | nil =>
    intro i data d h
    simp only [writeCells] at h
    cases h
    rfl
  | cons cell rest ih =>
    intro i data d h
    cases cell with
    | none => simp [writeCells] at h
    | some v =>
      have h2 : writeCells F c (i + 1) rest (data.set (i * F + c) v) = .ok d := h
      have := ih (i + 1) (data.set (i * F + c) v) d h2
      simpa using this

/-- Helper: `writeCells` leaves every index outside its own column's
row-major slots unchanged. -/
theorem writeCells_untouched (F c : Nat) (cells : List (Option Int)) :
    ∀ i data d, writeCells F c i cells data = .ok d →
    ∀ j, (∀ r, r < cells.length → j ≠ (i + r) * F + c) → d[j]? = data[j]? := by
  induction cells with
  | nil =>
    intro i data d h j _
    simp only [writeCells] at h
    cases h
    rfl
  | cons cell rest ih =>
    intro i data d h j hj
    cases cell with
    | none => simp [writeCells] at h
    | some v =>
      have h2 : writeCells F c (i + 1) rest (data.set (i * F + c) v) = .ok d := h
      have step1 : d[j]? = (data.set (i * F + c) v)[j]? := by
        refine ih (i + 1) _ d h2 j ?_
        intro r hr
        have := hj (r + 1) (by simpa using Nat.succ_lt_succ hr)
        have harith : i + (r + 1) = i + 1 + r := by omega
        rwa [harith] at this
      have hne : i * F + c ≠ j := by
        have := hj 0 (by simp)
        have harith : i + 0 = i := by omega
        rw [harith] at this
        exact fun he => this he.symm
      rw [step1, List.getElem?_set_ne hne]

/-- Helper: after a successful `writeCells`, the slot of each written
cell holds that cell's value. -/
theorem writeCells_written (F c : Nat) (hF : 0 < F) (cells : List (Option Int)) :
    ∀ i data d, writeCells F c i cells data = .ok d →
    (∀ r, r < cells.length → (i + r) * F + c < data.length) →
    ∀ r v, cells[r]? = some (some v) → d[(i + r) * F + c]? = some v := by
  induction cells with
  | nil =>
    intro i data d _ _ r v hr
    simp at hr
  | cons cell rest ih =>
    intro i data d h hb r v hr
    cases cell with
    | none => simp [writeCells] at h
    | some w =>
      have h2 : writeCells F c (i + 1) rest (data.set (i * F + c) w) = .ok d := h
      cases r with
      | zero =>
        have hv : w = v := by simpa using hr
        subst hv
        have hlt : i * F + c < data.length := by
          have := hb 0 (by simp)
          simpa using this
        have hpres : d[i * F + c]? = (data.set (i * F + c) w)[i * F + c]? := by
          refine writeCells_untouched F c rest (i + 1) _ d h2 (i * F + c) ?_
          intro r2 hr2
          have hle : (i + 1) * F ≤ (i + 1 + r2) * F :=
            Nat.mul_le_mul_right F (Nat.le_add_right _ _)
          have hexp : (i + 1) * F = i * F + F := by ring
          omega
        have harith : i + 0 = i := by omega
        rw [harith, hpres, List.getElem?_set_eq_of_lt w hlt]
      | succ r2 =>
        have hr2 : rest[r2]? = some (some v) := by simpa using hr
        have hbb : ∀ r3, r3 < rest.length → (i + 1 + r3) * F + c
            < (data.set (i * F + c) w).length := by
          intro r3 hr3
          have := hb (r3 + 1) (by simpa using Nat.succ_lt_succ hr3)
          have harith : i + (r3 + 1) = i + 1 + r3 := by omega
          rw [harith] at this
          simpa using this
        have := ih (i + 1) _ d h2 hbb r2 v hr2
        have harith : i + 1 + r2 = i + (r2 + 1) := by omega
        rwa [harith] at this

/-- Helper: `writeCells` succeeds on a column without nulls. -/
theorem writeCells_total (F c : Nat) (cells : List (Option Int)) :
    ∀ i data, (∀ cell ∈ cells, cell ≠ none) →
    ∃ d, writeCells F c i cells data = .ok d := by
  induction cells with
  | nil => intro i data _; exact ⟨data, rfl⟩
  | cons cell rest ih =>
    intro i data hn
    cases cell with
    | none => exact absurd rfl (hn none (by simp))
    | some v =>
      exact ih (i + 1) (data.set (i * F + c) v) (fun x hx => hn x (by simp [hx]))

/-- Helper: on a column containing a null, `writeCells` fails with a
NullValue error naming the row of an actual null cell and this
column. -/
theorem writeCells_null_error (F c : Nat) (cells : List (Option Int)) :
    ∀ (i : Nat) (data : List Int), (∃ r : Nat, cells[r]? = some none) →
    ∃ r : Nat, cells[r]? = some none ∧
      writeCells F c i cells data = .error (.nullValue (i + r) c) := by
  induction cells with
  | nil =>
    intro i data hex
    obtain ⟨r, hr⟩ := hex
    simp at hr
  | cons cell rest ih =>
    intro i data hex
    cases cell with
    | none =>
      refine ⟨0, by simp, ?_⟩
      have harith : i + 0 = i := by omega
      rw [harith]
      rfl
    | some v =>
      obtain ⟨r, hr⟩ := hex
      cases r with
      | zero => simp at hr
      | succ r2 =>
        obtain ⟨r0, h1, h2⟩ := ih (i + 1) (data.set (i * F + c) v) ⟨r2, by simpa using hr⟩
        refine ⟨r0 + 1, by simpa using h1, ?_⟩
        have harith : i + (r0 + 1) = i + 1 + r0 := by omega
        rw [harith]
        exact h2

/-- Helper: `writeColumns` preserves the buffer length. -/
theorem writeColumns_length (F : Nat) (cols : List PolarsColumn) :
    ∀ k data d, writeColumns F k cols data = .ok d → d.length = data.length := by
  induction cols with
  | nil =>
    intro k data d h
    simp only [writeColumns] at h
    cases h
    rfl
  | cons col rest ih =>
    intro k data d h
    cases hcast : col.castOk <;> simp only [writeColumns, hcast] at h
    · simp at h
    · simp only [if_true] at h
      cases hw : writeCells F k 0 col.cells data with
      | error e => rw [hw] at h; cases h
      | ok d1 =>
        rw [hw] at h
        rw [ih (k + 1) d1 d h, writeCells_length F k col.cells 0 data d1 hw]

/-- Helper: `writeColumns` leaves every index outside the row-major
slots of the columns it processes unchanged. -/
theorem writeColumns_untouched (F : Nat) (cols : List PolarsColumn) :
    ∀ k data d, writeColumns F k cols data = .ok d →
    ∀ j : Nat,
      (∀ t col, cols[t]? = some col → ∀ r, r < col.cells.length → j ≠ r * F + (k + t)) →
      d[j]? = data[j]? := by
  induction cols with
  | nil =>
    intro k data d h j _
    simp only [writeColumns] at h
    cases h
    rfl
  | cons col rest ih =>
    intro k data d h j hj
    cases hcast : col.castOk <;> simp only [writeColumns, hcast] at h
    · simp at h
    · simp only [if_true] at h
      cases hw : writeCells F k 0 col.cells data with
      | error e => rw [hw] at h; cases h
      | ok d1 =>
        rw [hw] at h
        have step1 : d[j]? = d1[j]? := by
          refine ih (k + 1) d1 d h j ?_
          intro t col2 ht r hr
          have := hj (t + 1) col2 (by simpa using ht) r hr
          have harith : k + (t + 1) = k + 1 + t := by omega
          rwa [harith] at this
        have step2 : d1[j]? = data[j]? := by
          refine writeCells_untouched F k col.cells 0 data d1 hw j ?_
          intro r hr
          have := hj 0 col (by simp) r hr
          have harith1 : (0 + r) * F + k = r * F + (k + 0) := by
            have h0 : 0 + r = r := by omega
            have h1 : k + 0 = k := by omega
            rw [h0, h1]
          rwa [harith1]
        rw [step1, step2]

/-- Helper: after a successful `writeColumns` on a uniform-height,
all-cast frame fragment starting at column offset `k`, the row-major
slot of every cell holds that cell's value. -/
theorem writeColumns_written (F R : Nat) (hF : 0 < F) (cols : List PolarsColumn) :
    ∀ k data d, writeColumns F k cols data = .ok d →
    (∀ col ∈ cols, col.cells.length = R) →
    k + cols.length ≤ F →
    data.length = R * F →
    ∀ t col (r : Nat) v, cols[t]? = some col → col.cells[r]? = some (some v) →
      d[r * F + (k + t)]? = some v := by
  induction cols with
  | nil =>
    intro k data d _ _ _ _ t col r v ht _
    simp at ht
  | cons col0 rest ih =>
    intro k data d h hlen hk hdata t col r v ht hv
    cases hcast : col0.castOk <;> simp only [writeColumns, hcast] at h
    · simp at h
    · simp only [if_true] at h
      cases hw : writeCells F k 0 col0.cells data with
      | error e => rw [hw] at h; cases h
      | ok d1 =>
        rw [hw] at h
        have hd1 : d1.length = data.length := writeCells_length F k col0.cells 0 data d1 hw
        have hkF : k < F := by
          have := hk
          simp only [List.length_cons] at this
          omega
        cases t with
        | zero =>
          have hcol : col0 = col := by simpa using ht
          subst hcol
          have hrlt : r < col0.cells.length := by
            by_contra hge
            push_neg at hge
            rw [List.getElem?_eq_none hge] at hv
            cases hv
          have hlen0 : col0.cells.length = R := hlen col0 (by simp)
          have hwrote : d1[(0 + r) * F + k]? = some v := by
            refine writeCells_written F k hF col0.cells 0 data d1 hw ?_ r v hv
            intro r2 hr2
            have : r2 < R := by rw [hlen0] at hr2; exact hr2
            have hidx : r2 * F + k < R * F := rowMajor_index_lt F R r2 k this hkF
            have h0 : 0 + r2 = r2 := by omega
            rw [h0, hdata]
            exact hidx
          have hpres : d[(0 + r) * F + k]? = d1[(0 + r) * F + k]? := by
            refine writeColumns_untouched F rest (k + 1) d1 d h ((0 + r) * F + k) ?_
            intro t2 col2 ht2 r2 hr2
            have ht2len : t2 < rest.length := by
              by_contra hge
              push_neg at hge
              rw [List.getElem?_eq_none hge] at ht2
              cases ht2
            have hc2F : k + 1 + t2 < F := by
              simp only [List.length_cons] at hk
              omega
            have h0 : 0 + r = r := by omega
            rw [h0]
            exact rowMajor_index_ne F r k r2 (k + 1 + t2) hkF hc2F (by omega)
          have harith : (0 + r) * F + k = r * F + (k + 0) := by
            have h0 : 0 + r = r := by omega
            have h1 : k + 0 = k := by omega
            rw [h0, h1]
          rw [← harith]
          rw [hpres]
          exact hwrote
        | succ t2 =>
          have ht2 : rest[t2]? = some col := by simpa using ht
          have := ih (k + 1) d1 d h (fun c hc => hlen c (by simp [hc]))
            (by simp only [List.length_cons] at hk; omega)
            (by rw [hd1]; exact hdata) t2 col r v ht2 hv
          have harith : k + 1 + t2 = k + (t2 + 1) := by omega
          rwa [harith] at this

/-- Helper: `writeColumns` succeeds on an all-cast, null-free frame
fragment. -/
theorem writeColumns_total (F : Nat) (cols : List PolarsColumn) :
    ∀ k data, (∀ col ∈ cols, col.castOk = true) →
    (∀ col ∈ cols, ∀ cell ∈ col.cells, cell ≠ none) →
    ∃ d, writeColumns F k cols data = .ok d := by
  induction cols with
  | nil => intro k data _ _; exact ⟨data, rfl⟩
  | cons col rest ih =>
    intro k data hc hn
    have hc0 : col.castOk = true := hc col (by simp)
    obtain ⟨d1, hw⟩ := writeCells_total F k col.cells 0 data
      (fun cell hcell => hn col (by simp) cell hcell)
    obtain ⟨d, hrest⟩ := ih (k + 1) d1 (fun c hc2 => hc c (by simp [hc2]))
      (fun c hc2 => hn c (by simp [hc2]))
    refine ⟨d, ?_⟩
    simp only [writeColumns, hc0, if_true, hw]
    exact hrest

/-- Helper: on an all-cast frame fragment containing a null cell,
`writeColumns` fails with a NullValue error naming the row and the
absolute column index of an actual null cell. -/
theorem writeColumns_null (F : Nat) (cols : List PolarsColumn) :
    ∀ k data, (∀ col ∈ cols, col.castOk = true) →
    (∃ col ∈ cols, ∃ r : Nat, col.cells[r]? = some none) →
    ∃ (t : Nat) (col : PolarsColumn) (r : Nat),
      cols[t]? = some col ∧ col.cells[r]? = some none ∧
      writeColumns F k cols data = .error (.nullValue r (k + t)) := by
  induction cols with
  | nil =>
    rintro k data _ ⟨col, hmem, _⟩
    simp at hmem
  | cons col0 rest ih =>
    intro k data hcast hex
    have hc0 : col0.castOk = true := hcast col0 (by simp)
    by_cases h0 : ∃ r : Nat, col0.cells[r]? = some none
    · obtain ⟨r, hr, herr⟩ := writeCells_null_error F k col0.cells 0 data h0
      refine ⟨0, col0, r, by simp, hr, ?_⟩
      have harith : k + 0 = k := by omega
      rw [harith]
      have h0r : (0 : Nat) + r = r := by omega
      rw [h0r] at herr
      simp only [writeColumns, hc0, if_true, herr]
    · have hnonull : ∀ cell ∈ col0.cells, cell ≠ none := by
        intro cell hcell hne
        subst hne
        obtain ⟨n, hn⟩ := List.getElem?_of_mem hcell
        exact h0 ⟨n, hn⟩
      obtain ⟨d1, hw⟩ := writeCells_total F k col0.cells 0 data hnonull
      have hex2 : ∃ col ∈ rest, ∃ r : Nat, col.cells[r]? = some none := by
        obtain ⟨col, hmem, hr⟩ := hex
        rcases List.mem_cons.mp hmem with hcol | hcol
        · subst hcol
          exact absurd hr h0
        · exact ⟨col, hcol, hr⟩
      obtain ⟨t, col, r, ht, hr, herr⟩ :=
        ih (k + 1) d1 (fun c hc => hcast c (by simp [hc])) hex2
      refine ⟨t + 1, col, r, by simpa using ht, hr, ?_⟩
      have harith : k + (t + 1) = k + 1 + t := by omega
      rw [harith]
      simp only [writeColumns, hc0, if_true, hw]
      exact herr

/-- Helper: on a nonempty, uniform-height frame whose columns all cast
and contain no nulls, `dataframe_to_dense` succeeds, returns the frame's
height and width, a buffer of exactly height * width elements, and
places the cell at row `r` of column `t` at index `r * width + t`. -/
theorem dataframe_to_dense_ok (df : PolarsDataFrame)
    (hr : 0 < dfHeight df) (hw : 0 < df.length)
    (hu : ∀ col ∈ df, col.cells.length = dfHeight df)
    (hc : ∀ col ∈ df, col.castOk = true)
    (hn : ∀ col ∈ df, ∀ cell ∈ col.cells, cell ≠ none) :
    ∃ data, dataframe_to_dense df = .ok (data, dfHeight df, df.length) ∧
      data.length = dfHeight df * df.length ∧
      ∀ t col (r : Nat) v, df[t]? = some col → col.cells[r]? = some (some v) →
        data[r * df.length + t]? = some v := by
  obtain ⟨data, hwc⟩ := writeColumns_total df.length df 0
    (List.replicate (dfHeight df * df.length) (0 : Int)) hc hn
  have hlen : data.length = dfHeight df * df.length := by
    rw [writeColumns_length df.length df 0 _ data hwc, List.length_replicate]
  refine ⟨data, ?_, hlen, ?_⟩
  · simp only [dataframe_to_dense]
    rw [if_neg (by omega), hwc]
  · intro t col r v ht hv
    have := writeColumns_written df.length (dfHeight df) hw df 0
      (List.replicate (dfHeight df * df.length) (0 : Int)) data hwc hu
      (by simp) (by simp [Nat.mul_comm]) t col r v ht hv
    have harith : (0 : Nat) + t = t := by omega
    rwa [harith] at this

/-- C7: for every DataFrame with at least one row and one column, whose
columns all have the frame's height (the tabular engine's invariant),
all cast to Float32 and contain no null cell, `dataframe_to_dense`
returns (buffer, rows, features) with features equal to the column
count and rows equal to the height, the buffer has exactly
rows * features elements, and the element at `r * features + t` is the
cast value of the cell at row `r` of column `t` — column order defines
feature order, row-major layout. -/
theorem dataframe_to_dense_rowMajor (df : PolarsDataFrame)
    (hr : 0 < dfHeight df) (hw : 0 < df.length)
    (hu : ∀ col ∈ df, col.cells.length = dfHeight df)
    (hc : ∀ col ∈ df, col.castOk = true)
    (hn : ∀ col ∈ df, ∀ cell ∈ col.cells, cell ≠ none) :
    ∃ data, dataframe_to_dense df = .ok (data, dfHeight df, df.length) ∧
      data.length = dfHeight df * df.length ∧
      ∀ t col (r : Nat) v, df[t]? = some col → col.cells[r]? = some (some v) →
        data[r * df.length + t]? = some v :=
  dataframe_to_dense_ok df hr hw hu hc hn

/-- Witness for C7 at a concrete 2-by-2 frame (conversion computes to
the row-major buffer [10, 30, 20, 40] with rows 2 and features 2). -/
theorem dataframe_to_dense_rowMajor_witness :
    dataframe_to_dense
        [⟨"a", true, [some 10, some 20]⟩, ⟨"b", true, [some 30, some 40]⟩]
      = .ok ([10, 30, 20, 40], 2, 2) ∧
    ∃ data, dataframe_to_dense
        [⟨"a", true, [some 10, some 20]⟩, ⟨"b", true, [some 30, some 40]⟩]
      = .ok (data,
          dfHeight [⟨"a", true, [some 10, some 20]⟩, ⟨"b", true, [some 30, some 40]⟩],
          ([⟨"a", true, [some 10, some 20]⟩,
            ⟨"b", true, [some 30, some 40]⟩] : PolarsDataFrame).length) ∧
      data.length = 2 * 2 ∧
      ∀ t col (r : Nat) v,
        ([⟨"a", true, [some 10, some 20]⟩,
          ⟨"b", true, [some 30, some 40]⟩] : PolarsDataFrame)[t]? = some col →
        col.cells[r]? = some (some v) → data[r * 2 + t]? = some v :=
  ⟨rfl,
   dataframe_to_dense_rowMajor
     [⟨"a", true, [some 10, some 20]⟩, ⟨"b", true, [some 30, some 40]⟩]
     (by decide) (by decide) (by decide) (by decide) (by decide)⟩

/-- C8 counterexample: the claim quantifies over every table containing
a null cell in a column that coerces to float.  In this table column
"b" coerces and has a null cell, but column "a" (processed first) fails
the Float32 cast, so the conversion fails with the CastFailure-class
error for "a", not with a NullValue-class error: as stated, the claim
is false. -/
theorem null_after_cast_failure_cex :
    dataframe_to_dense [⟨"a", false, [some 1]⟩, ⟨"b", true, [none]⟩]
      = .error (.castFailure "a") :=
  rfl

/-- C8 (amended): for every uniform-height table whose columns all
coerce to Float32 and which contains at least one null cell, the
conversion fails with a NullValue-class error identifying the row index
and column index of an actual null cell, so no buffer is produced and
no null is ever forwarded as a missing-value sentinel. -/
theorem dataframe_to_dense_null_rejected (df : PolarsDataFrame)
    (hu : ∀ col ∈ df, col.cells.length = dfHeight df)
    (hc : ∀ col ∈ df, col.castOk = true)
    (hex : ∃ col ∈ df, ∃ r : Nat, col.cells[r]? = some none) :
    ∃ (c : Nat) (col : PolarsColumn) (r : Nat),
      df[c]? = some col ∧ col.cells[r]? = some none ∧
      dataframe_to_dense df = .error (.nullValue r c) := by
  obtain ⟨col0, hmem, r0, hr0⟩ := hex
  have hwidth : 0 < df.length := List.length_pos.mpr (by
    intro hnil
    rw [hnil] at hmem
    simp at hmem)
  have hr0lt : r0 < col0.cells.length := by
    by_contra hge
    push_neg at hge
    rw [List.getElem?_eq_none hge] at hr0
    cases hr0
  have hheight : 0 < dfHeight df := by
    have := hu col0 hmem
    omega
  obtain ⟨t, col, r, ht, hr, herr⟩ := writeColumns_null df.length df 0
    (List.replicate (dfHeight df * df.length) (0 : Int)) hc ⟨col0, hmem, r0, hr0⟩
  refine ⟨0 + t, col, r, ?_, hr, ?_⟩
  · have harith : (0 : Nat) + t = t := by omega
    rw [harith]
    exact ht
  · simp only [dataframe_to_dense]
    rw [if_neg (by omega), herr]

/-- Witness for C8 (amended) at the spec's own example: a table with
one null cell at row 2 of column 1 fails with exactly NullValue(2, 1);
the conversion also computes to that error. -/
theorem dataframe_to_dense_null_rejected_witness :
    dataframe_to_dense
        [⟨"a", true, [some 1, some 2, some 3]⟩, ⟨"b", true, [some 4, some 5, none]⟩]
      = .error (.nullValue 2 1) ∧
    ∃ (c : Nat) (col : PolarsColumn) (r : Nat),
      ([⟨"a", true, [some 1, some 2, some 3]⟩,
        ⟨"b", true, [some 4, some 5, none]⟩] : PolarsDataFrame)[c]? = some col ∧
      col.cells[r]? = some none ∧
      dataframe_to_dense
          [⟨"a", true, [some 1, some 2, some 3]⟩, ⟨"b", true, [some 4, some 5, none]⟩]
        = .error (.nullValue r c) :=
  ⟨rfl,
   dataframe_to_dense_null_rejected
     [⟨"a", true, [some 1, some 2, some 3]⟩, ⟨"b", true, [some 4, some 5, none]⟩]
     (by decide) (by decide)
     ⟨⟨"b", true, [some 4, some 5, none]⟩, by decide, 2, rfl⟩⟩

/-- Helper: when every requested name is present, `selectColumns`
succeeds and returns, position by position, the frame's column found
under each requested name. -/
theorem selectColumns_ok (df : PolarsDataFrame) (names : List String)
    (hall : ∀ n ∈ names, ∃ col ∈ df, col.name = n) :
    ∃ sel, selectColumns df names = .ok sel ∧ sel.length = names.length ∧
      ∀ (t : Nat) n, names[t]? = some n →
        ∃ col, df.find? (fun c => c.name == n) = some col ∧ sel[t]? = some col := by
  induction names with
  | nil =>
    refine ⟨[], rfl, rfl, ?_⟩
    intro t n ht
    simp at ht
  | cons n rest ih =>
    have hfind : (df.find? (fun c => c.name == n)).isSome := by
      rw [List.find?_isSome]
      obtain ⟨col, hm, he⟩ := hall n (by simp)
      exact ⟨col, hm, by simp [he]⟩
    obtain ⟨col0, hcol0⟩ := Option.isSome_iff_exists.mp hfind
    obtain ⟨sel, hsel, hlen, hidx⟩ := ih (fun m hm => hall m (by simp [hm]))
    refine ⟨col0 :: sel, ?_, by simp [hlen], ?_⟩
    · simp only [selectColumns, hcol0, hsel]
    · intro t m ht
      cases t with
      | zero =>
        have hm : n = m := by simpa using ht
        subst hm
        exact ⟨col0, hcol0, by simp⟩
      | succ t2 =>
        obtain ⟨c, h1, h2⟩ := hidx t2 m (by simpa using ht)
        exact ⟨c, h1, by simpa using h2⟩

/-- Helper: when some requested name is absent, `selectColumns` fails
with a ColumnNotFound error naming an absent requested name. -/
theorem selectColumns_absent (df : PolarsDataFrame) (names : List String)
    (hex : ∃ n ∈ names, ∀ col ∈ df, col.name ≠ n) :
    ∃ m, m ∈ names ∧ (∀ col ∈ df, col.name ≠ m) ∧
      selectColumns df names = .error (.columnNotFound m) := by
  induction names with
  | nil =>
    obtain ⟨n, hn, _⟩ := hex
    simp at hn
  | cons n rest ih =>
    cases hfind : df.find? (fun c => c.name == n) with
    | none =>
      refine ⟨n, by simp, ?_, ?_⟩
      · intro col hcol he
        have := List.find?_eq_none.mp hfind col hcol
        simp [he] at this
      · simp only [selectColumns, hfind]
    | some col0 =>
      have hn0 : col0.name = n := by
        have := List.find?_some hfind
        simpa using this
      have hmem0 : col0 ∈ df := List.mem_of_find?_eq_some hfind
      have hex2 : ∃ m ∈ rest, ∀ col ∈ df, col.name ≠ m := by
        obtain ⟨m, hm, habs⟩ := hex
        rcases List.mem_cons.mp hm with hm2 | hm2
        · subst hm2
          exact absurd hn0 (habs col0 hmem0)
        · exact ⟨m, hm2, habs⟩
      obtain ⟨m, hm, habs, herr⟩ := ih hex2
      refine ⟨m, by simp [hm], habs, ?_⟩
      simp only [selectColumns, hfind, herr]

/-- C9: the column-subset prediction variant first narrows the frame to
the caller's ordered list of column names.  If some requested name is
absent, it fails with a ColumnNotFound-class error naming an absent
requested name.  Otherwise the narrowed frame is converted exactly as
in `predict_dataframe`: the feature count passed to predict equals the
number of requested columns, and the value at feature position `t` of
row `r` is the cell of the frame column named by the t-th requested
name — so output values come only from the requested columns, in the
requested order. -/
theorem predict_with_columns_narrows (b : Booster) (df : PolarsDataFrame)
    (cols : List String) (mask : Nat) (training : Bool) (o : PredictNative)
    (hu : ∀ col ∈ df, col.cells.length = dfHeight df)
    (hc : ∀ col ∈ df, col.castOk = true)
    (hn : ∀ col ∈ df, ∀ cell ∈ col.cells, cell ≠ none)
    (hh : 0 < dfHeight df) (hne : cols ≠ []) :
    ((∃ n ∈ cols, ∀ col ∈ df, col.name ≠ n) →
      ∃ m, m ∈ cols ∧ (∀ col ∈ df, col.name ≠ m) ∧
        predict_dataframe_with_columns b df cols mask training o
          = (.error (.columnNotFound m), [])) ∧
    ((∀ n ∈ cols, ∃ col ∈ df, col.name = n) →
      ∃ sel data, selectColumns df cols = .ok sel ∧
        dataframe_to_dense sel = .ok (data, dfHeight df, cols.length) ∧
        predict_dataframe_with_columns b df cols mask training o
          = b.predict data (dfHeight df) cols.length mask training o ∧
        ∀ (t : Nat) n col (r : Nat) v, cols[t]? = some n →
          df.find? (fun c => c.name == n) = some col →
          col.cells[r]? = some (some v) →
          data[r * cols.length + t]? = some v) := by
  constructor
  · intro hex
    obtain ⟨m, hm, habs, herr⟩ := selectColumns_absent df cols hex
    exact ⟨m, hm, habs, by simp only [predict_dataframe_with_columns, herr]⟩
  · intro hall
    obtain ⟨sel, hsel, hslen, hidx⟩ := selectColumns_ok df cols hall
    have hselmem : ∀ col ∈ sel, col ∈ df := by
      intro col hmem
      obtain ⟨t, ht⟩ := List.getElem?_of_mem hmem
      have htlt : t < cols.length := by
        rw [← hslen]
        by_contra hge
        push_neg at hge
        rw [List.getElem?_eq_none hge] at ht
        cases ht
      obtain ⟨n, hn2⟩ : ∃ n, cols[t]? = some n :=
        ⟨cols[t], (List.getElem?_eq_some).mpr ⟨htlt, rfl⟩⟩
      obtain ⟨col2, hfind, hselt⟩ := hidx t n hn2
      have : col2 = col := by
        rw [ht] at hselt
        exact (Option.some.inj hselt).symm
      subst this
      exact List.mem_of_find?_eq_some hfind
    have hcolslen : 0 < cols.length := List.length_pos.mpr hne
    have hheight : dfHeight sel = dfHeight df := by
      cases hsel2 : sel with
      | nil =>
        rw [hsel2] at hslen
        simp at hslen
        omega
      | cons c rest =>
        have hcmem : c ∈ df := hselmem c (by simp [hsel2])
        simp only [dfHeight]
        exact hu c hcmem
    obtain ⟨data, hok, hlen, hplace⟩ := dataframe_to_dense_ok sel
      (by rw [hheight]; exact hh)
      (by rw [hslen]; exact hcolslen)
      (fun col hm => by rw [hheight]; exact hu col (hselmem col hm))
      (fun col hm => hc col (hselmem col hm))
      (fun col hm => hn col (hselmem col hm))
    rw [hheight, hslen] at hok
    refine ⟨sel, data, hsel, hok, ?_, ?_⟩
    · simp only [predict_dataframe_with_columns, hsel, hok]
    · intro t n col r v ht hfind hcell
      obtain ⟨col2, hfind2, hselt⟩ := hidx t n ht
      have : col2 = col := by
        rw [hfind] at hfind2
        exact (Option.some.inj hfind2).symm
      subst this
      have := hplace t col2 r v hselt hcell
      rwa [hslen] at this

/-- Witness for C9 at the spec's own example: a frame with columns
["a", "b"] requested via subset ["b"] yields feature count 1 and
values from column "b" only (the pipeline computes to predicting on
the dense buffer [2] with 1 row and 1 feature). -/
theorem predict_with_columns_narrows_witness :
    (predict_dataframe_with_columns ⟨1⟩
        [⟨"a", true, [some 1]⟩, ⟨"b", true, [some 2]⟩] ["b"] 0 false
        ⟨0, 2, 0, 1, fun _ => 5, 0, ""⟩).1 = .ok [5] ∧
    ∃ sel data,
      selectColumns [⟨"a", true, [some 1]⟩, ⟨"b", true, [some 2]⟩] ["b"] = .ok sel ∧
      dataframe_to_dense sel
        = .ok (data, dfHeight [⟨"a", true, [some 1]⟩, ⟨"b", true, [some 2]⟩],
               (["b"] : List String).length) ∧
      predict_dataframe_with_columns ⟨1⟩
          [⟨"a", true, [some 1]⟩, ⟨"b", true, [some 2]⟩] ["b"] 0 false
          ⟨0, 2, 0, 1, fun _ => 5, 0, ""⟩
        = Booster.predict ⟨1⟩ data
            (dfHeight [⟨"a", true, [some 1]⟩, ⟨"b", true, [some 2]⟩])
            (["b"] : List String).length 0 false ⟨0, 2, 0, 1, fun _ => 5, 0, ""⟩ ∧
      ∀ (t : Nat) n col (r : Nat) v, (["b"] : List String)[t]? = some n →
        ([⟨"a", true, [some 1]⟩, ⟨"b", true, [some 2]⟩] : PolarsDataFrame).find?
            (fun c => c.name == n) = some col →
        col.cells[r]? = some (some v) →
        data[r * (["b"] : List String).length + t]? = some v :=
  ⟨rfl,
   (predict_with_columns_narrows ⟨1⟩
      [⟨"a", true, [some 1]⟩, ⟨"b", true, [some 2]⟩] ["b"] 0 false
      ⟨0, 2, 0, 1, fun _ => 5, 0, ""⟩
      (by decide) (by decide) (by decide) (by decide) (by decide)).2
     (by
       intro n hn
       simp at hn
       subst hn
       exact ⟨⟨"b", true, [some 2]⟩, by decide, rfl⟩)⟩
